import Mathlib

/-!
Verification of the Pageant shared-memory connection (pageant.go).

The Go source implements a `Conn` talking to the PuTTY Pageant agent
through a named shared-memory region and a `WM_COPYDATA` window message.
We embed the connection state machine shallowly:

- bytes are `Nat` values (real bytes are below 256; theorems that depend
  on byte width carry that bound as a hypothesis),
- the shared-memory region contents are carried in the model state as a
  `List Nat` (the Go code holds only the address `sharedMem`; address 0
  means "no mapping"),
- the buffered Go channel `data chan []byte` of capacity 10 is a queue
  plus a closed flag, with send/receive/close following Go semantics
  (send on a full channel blocks, send or close on a closed channel
  panics, receive on a closed channel drains buffered items first),
- the agent side of `SendMessageW` is an oracle: a function from the
  staged region contents to the reply code, the `GetLastError`-derived
  error of the call, and the region contents after the call.

Operations return explicit result values with `blocked` and `panic`
outcomes so that blocking and Go runtime panics are visible.
-/

/-! ### Data model and operations -/

/-- Maximum agent message length, `agentMaxMsglen = 8192` in pageant.go. -/
def agentMaxMsglen : Nat := 8192

/-- Errors returned by the connection; each `fmt.Errorf` call site in
pageant.go gets one constructor, with the formatted numeric arguments kept
as fields.  `eof` is `io.EOF`, `os` is an error bubbled up unchanged from a
Windows API call. -/
inductive GoError where
  | eof : GoError
  | notConnected : GoError
  | emptyMessage : GoError
  | oversizeRequest (n max : Nat) : GoError
  | oversizeResponse (total max : Nat) : GoError
  | failedToSend (cause : String) : GoError
  | requestRefused : GoError
  | os (cause : String) : GoError
deriving DecidableEq

/-- A buffered Go channel of `List Nat` chunks: the queued items and the
closed flag.  pageant.go creates `make(chan []byte, 10)`. -/
structure Chan where
  items : List (List Nat)
  closed : Bool
deriving DecidableEq

/-- Capacity of the `data` channel in `NewPageantConn`. -/
def chanCap : Nat := 10

/-- Outcome of a channel send. -/
inductive SendRes where
  | ok (ch : Chan) : SendRes
  | blocked : SendRes
  | panic : SendRes
deriving DecidableEq

/-- `ch <- x` on a buffered channel: panics if the channel is closed,
blocks if the buffer is full, otherwise appends at the tail. -/
def Chan.send (ch : Chan) (x : List Nat) : SendRes :=
  if ch.closed then .panic
  else if ch.items.length < chanCap then .ok ⟨ch.items ++ [x], ch.closed⟩
  else .blocked

/-- Outcome of a channel receive. -/
inductive RecvRes where
  | ok (x : List Nat) (ch : Chan) : RecvRes
  | closedEmpty (ch : Chan) : RecvRes
  | blocked : RecvRes
deriving DecidableEq

/-- `x, ok := <-ch`: delivers buffered items first; on an empty channel,
reports closure (`ok = false`) if closed, otherwise blocks. -/
def Chan.recv (ch : Chan) : RecvRes :=
  match ch.items with
  | x :: rest => .ok x ⟨rest, ch.closed⟩
  | [] => if ch.closed then .closedEmpty ch else .blocked

/-- `close(ch)`: `none` models the Go runtime panic on closing an
already-closed channel. -/
def Chan.chanClose (ch : Chan) : Option Chan :=
  if ch.closed then none else some ⟨ch.items, true⟩

/-- The handle value `windows.InvalidHandle`. -/
def invalidHandle : Nat := 18446744073709551615

/-- The connection state of `Conn` in pageant.go.  `region` carries the
contents of the shared-memory mapping that the Go code reaches through the
raw address `sharedMem`; `sharedMem = 0` means no mapping. -/
structure Conn where
  window : Nat
  sharedFile : Nat
  sharedMem : Nat
  mapName : String
  data : Chan
  buf : List Nat
  eof : Bool
  region : List Nat
deriving DecidableEq

/-- Result of `Conn.Write`: the returned `(n, err)` pair and the
post-state, with explicit blocked/panic outcomes for the channel send. -/
inductive WriteRes where
  | ok (n : Nat) (c : Conn) : WriteRes
  | error (n : Nat) (e : GoError) (c : Conn) : WriteRes
  | blocked : WriteRes
  | panic : WriteRes
deriving DecidableEq

/-- Result of `Conn.Read`: the returned count, the bytes copied into the
caller's buffer, and the post-state. -/
inductive ReadRes where
  | ok (n : Nat) (bytes : List Nat) (c : Conn) : ReadRes
  | error (n : Nat) (e : GoError) (c : Conn) : ReadRes
  | blocked : ReadRes
deriving DecidableEq

/-- Result of `Conn.Close`. -/
inductive CloseRes where
  | ok (c : Conn) : CloseRes
  | error (e : GoError) (c : Conn) : CloseRes
  | panic : CloseRes
deriving DecidableEq

/-- `binary.BigEndian.Uint32` applied to the first four bytes of the
region, as in `Conn.Write`.  Bytes are reduced mod 256 because the mapped
memory holds bytes. -/
def readBE32 (r : List Nat) : Nat :=
  (r.getD 0 0 % 256) * 16777216 + (r.getD 1 0 % 256) * 65536 +
    (r.getD 2 0 % 256) * 256 + (r.getD 3 0 % 256)

/-- `copy(dst, p)` into the start of the 8192-byte region:
the first `p.length` bytes are replaced, the rest are unchanged. -/
def stageRequest (region p : List Nat) : List Nat :=
  p ++ region.drop p.length

/-- The agent side of one `SendMessageW` call: from the staged region
contents it produces the reply code `result`, the error of the call
(`none` when `GetLastError` is the no-error sentinel, matching
`Conn.sendMessage`), and the region contents after the call. -/
def Agent : Type := List Nat → Nat × Option String × List Nat

/-- `Conn.Write` from pageant.go, line by line: oversize check, empty
check, connection check, stage the request into the region, call the
agent, interpret a zero reply, read the big-endian length prefix, bound
it by `agentMaxMsglen - 4`, enqueue the `4 + messageSize` response bytes,
return `len(p)`.  The printed size in the oversize-response error is the
`uint32` sum `messageSize + 4`. -/
def Conn.write (c : Conn) (p : List Nat) (agent : Agent) : WriteRes :=
  if p.length > agentMaxMsglen then
    .error 0 (.oversizeRequest p.length agentMaxMsglen) c
  else if p.length = 0 then
    .error 0 .emptyMessage c
  else if c.sharedMem = 0 then
    .error 0 .notConnected c
  else
    let out := agent (stageRequest c.region p)
    let result := out.1
    let errS := out.2.1
    let regionAfter := out.2.2
    let c1 : Conn := { c with region := regionAfter }
    if result = 0 then
      match errS with
      | some e => .error 0 (.failedToSend e) c1
      | none => .error 0 .requestRefused c1
    else
      let messageSize := readBE32 regionAfter
      if messageSize > agentMaxMsglen - 4 then
        .error 0 (.oversizeResponse ((messageSize + 4) % 4294967296) agentMaxMsglen) c1
      else
        match c1.data.send (regionAfter.take (4 + messageSize)) with
        | .ok ch => .ok p.length { c1 with data := ch }
        | .blocked => .blocked
        | .panic => .panic

/-- The tail of `Conn.Read` from the channel receive onward: where a read
that found both `buf` and the channel empty blocks, and where it resumes
when the channel gets an item or is closed. -/
def Conn.readResume (c : Conn) (plen : Nat) : ReadRes :=
  match c.data.recv with
  | .blocked => .blocked
  | .closedEmpty ch => .error 0 .eof { c with data := ch, eof := true }
  | .ok x ch =>
    let n := min plen x.length
    .ok n (x.take n) { c with data := ch, buf := x.drop n }

/-- `Conn.Read` from pageant.go: `eof` short-circuit, connection check,
refill `buf` from the channel when empty, then `n = copy(p, c.buf)` and
`c.buf = c.buf[n:]`.  `plen` is the caller's buffer length. -/
def Conn.read (c : Conn) (plen : Nat) : ReadRes :=
  if c.eof then .error 0 .eof c
  else if c.sharedMem = 0 then .error 0 .notConnected c
  else if c.buf = [] then c.readResume plen
  else
    let n := min plen c.buf.length
    .ok n (c.buf.take n) { c with buf := c.buf.drop n }

/-- `Conn.Close` from pageant.go: a nil op when `sharedMem == 0`, else
`close(c.data)` (a panic if the channel is already closed), then
`UnmapViewOfFile` and `CloseHandle` whose outcomes are the parameters
`errUnmap` and `errClose`; the handles are invalidated only when both
succeed. -/
def Conn.connClose (c : Conn) (errUnmap errClose : Option GoError) : CloseRes :=
  if c.sharedMem = 0 then .ok c
  else
    match c.data.chanClose with
    | none => .panic
    | some ch =>
      let c1 : Conn := { c with data := ch }
      match errUnmap with
      | some e => .error e c1
      | none =>
        match errClose with
        | some e => .error e c1
        | none => .ok { c1 with sharedMem := 0, sharedFile := invalidHandle }

/-- One lowercase hexadecimal digit, as produced by the `%x` verb. -/
def hexDigitChar (d : Nat) : Char :=
  if d < 10 then Char.ofNat (48 + d) else Char.ofNat (87 + d)

/-- The `%x` rendering of a natural number: lowercase hex, no leading
zeros, `"0"` for zero. -/
def hexRepr (n : Nat) : String :=
  if n = 0 then "0" else String.mk ((Nat.digits 16 n).reverse.map hexDigitChar)

/-- `fmt.Sprintf("PageantRequest_%x_%x", pid, id)` from `establishConn`. -/
def pageantRequestName (pid id : Nat) : String :=
  "PageantRequest_" ++ hexRepr pid ++ "_" ++ hexRepr id

/-- The value `connUniqueID.Add(1)` returns for the n-th connection
created in the process (counting from 0): the counter is an
`atomic.Uint64` starting at 0, so the n-th call returns `n + 1` reduced
mod `2^64`. -/
def connUniqueIDValue (n : Nat) : Nat := (n + 1) % 18446744073709551616

/-- The map name `establishConn` assigns to the n-th connection created
by a process with the given pid. -/
def establishMapName (pid n : Nat) : String :=
  pageantRequestName pid (connUniqueIDValue n)

/-- Decoder of one lowercase hex digit character, inverse to
`hexDigitChar` on digits below 16. -/
def hexVal (ch : Char) : Nat :=
  if 87 ≤ ch.toNat then ch.toNat - 87 else ch.toNat - 48

/-- The effect of one write on the shared region and the response chunk
the agent leaves, computed from the agent alone: the staged request is
handed to the agent, and the chunk is the 4-byte prefix plus the declared
payload length, read back out of the region.  This mirrors the wire
format, independently of the `Conn.write` control flow. -/
def specStep (region : List Nat) (w : List Nat × Agent) : List Nat × List Nat :=
  let ra := (w.2 (stageRequest region w.1)).2.2
  (ra, ra.take (4 + readBE32 ra))

/-- The response chunks a sequence of writes should produce, in write
order, threading the region contents through the steps. -/
def specChunks : List Nat → List (List Nat × Agent) → List (List Nat)
  | _, [] => []
  | region, w :: ws => (specStep region w).2 :: specChunks (specStep region w).1 ws

/-- Run a sequence of writes; `some` only when every write returns ok. -/
def runWrites : Conn → List (List Nat × Agent) → Option Conn
  | c, [] => some c
  | c, w :: ws =>
    match c.write w.1 w.2 with
    | .ok _ c2 => runWrites c2 ws
    | _ => none

/-- A freshly established connection: nonzero mapping address, empty
channel of capacity 10, empty read buffer. -/
def connT : Conn :=
  { window := 7, sharedFile := 3, sharedMem := 1, mapName := "PageantRequest_1_1",
    data := ⟨[], false⟩, buf := [], eof := false, region := List.replicate 16 0 }

/-- An agent that accepts and replies with payload `"po"` (length 2). -/
def agentT : Agent := fun _ => (1, none, [0, 0, 0, 2, 112, 111])

/-- An agent that replies with payload `"ng"` (length 2). -/
def agentT2 : Agent := fun _ => (1, none, [0, 0, 0, 2, 110, 103])

/-- An agent whose reply declares length 0xffffffff, exceeding the
maximum. -/
def agentBigT : Agent := fun _ => (1, none, [255, 255, 255, 255, 0])

/-- An agent that refuses the request: zero reply code, no call error. -/
def agentRefuseT : Agent := fun _ => (0, none, [0, 0, 0, 0])

/-- An agent call that fails at the messenger level: zero result and a
reported error. -/
def agentFailT : Agent := fun _ => (0, some "win32 failure", [0, 0, 0, 0])

/-- `connT` after a successful Close. -/
def closedConnT : Conn :=
  { connT with data := ⟨[], true⟩, sharedMem := 0, sharedFile := invalidHandle }

/-- `connT` after a Close in which `UnmapViewOfFile` failed: the channel
is closed but the mapping fields are not reset. -/
def erroredCloseConnT : Conn := { connT with data := ⟨[], true⟩ }

/-- A connection with a partially drained chunk in its read buffer. -/
def connBufT : Conn := { connT with buf := [1, 2, 3] }

/-- A connection with one 4-byte chunk waiting on the queue. -/
def connQT : Conn := { connT with data := ⟨[[4, 5, 6, 7]], false⟩ }

/-- The region contents after the agent handled the staged request of
one write. -/
def agentRegion (c : Conn) (p : List Nat) (agent : Agent) : List Nat :=
  (agent (stageRequest c.region p)).2.2

/-- The response chunk of one write: 4-byte length prefix plus the
declared payload, read back out of the region the agent filled. -/
def responseChunk (c : Conn) (p : List Nat) (agent : Agent) : List Nat :=
  (agentRegion c p agent).take (4 + readBE32 (agentRegion c p agent))

/-- The state after the C1 witness write: the `"po"` response chunk
queued, the region holding the agent response. -/
def cW1 : Conn :=
  { connT with
    region := [0, 0, 0, 2, 112, 111]
    data := ⟨[[0, 0, 0, 2, 112, 111]], false⟩ }

/-- The sequence of two requests used by the C5 witness. -/
def wsT : List (List Nat × Agent) := [([9], agentT), ([8], agentT2)]

/-- The connection state after running `wsT` from `connT`: both response
chunks queued in write order, region holding the second response. -/
def cW2 : Conn :=
  { connT with
    region := [0, 0, 0, 2, 110, 103]
    data := ⟨[[0, 0, 0, 2, 112, 111], [0, 0, 0, 2, 110, 103]], false⟩ }

/-! ### Lemmas about the operations, claim theorems and witnesses -/

lemma hexVal_hexDigitChar : ∀ d, d < 16 → hexVal (hexDigitChar d) = d := by decide

lemma string_ext {s t : String} (h : s.data = t.data) : s = t := by
  cases s; cases t; exact congrArg String.mk h

lemma hex_map_inj {a b : List Nat} (ha : ∀ d ∈ a, d < 16) (hb : ∀ d ∈ b, d < 16)
    (h : a.map hexDigitChar = b.map hexDigitChar) : a = b := by
  have h2 := congrArg (List.map hexVal) h
  rw [List.map_map, List.map_map] at h2
  have ea : a.map (hexVal ∘ hexDigitChar) = a.map id :=
    List.map_congr_left fun d hd => hexVal_hexDigitChar d (ha d hd)
  have eb : b.map (hexVal ∘ hexDigitChar) = b.map id :=
    List.map_congr_left fun d hd => hexVal_hexDigitChar d (hb d hd)
  rw [ea, eb, List.map_id, List.map_id] at h2
  exact h2

lemma digits16_lt (n : Nat) : ∀ d ∈ Nat.digits 16 n, d < 16 :=
  fun _ hd => Nat.digits_lt_base (by norm_num) hd

lemma hexRepr_zero : hexRepr 0 = "0" := rfl

lemma hexRepr_ne_zero_str {b : Nat} (hb : b ≠ 0) : hexRepr b ≠ "0" := by
  intro h
  unfold hexRepr at h
  rw [if_neg hb] at h
  have hl : ((Nat.digits 16 b).reverse.map hexDigitChar) = ("0" : String).data :=
    congrArg String.data h
  have h0 : ("0" : String).data = [0].map hexDigitChar := by decide
  rw [h0] at hl
  have hrev : (Nat.digits 16 b).reverse = [0] :=
    hex_map_inj (fun d hd => digits16_lt b d (List.mem_reverse.mp hd)) (by decide) hl
  have hdig : Nat.digits 16 b = [0] := by
    have := congrArg List.reverse hrev
    simpa using this
  have h2 := Nat.ofDigits_digits 16 b
  rw [hdig] at h2
  have h3 : Nat.ofDigits 16 [0] = 0 := by decide
  rw [h3] at h2
  exact hb h2.symm

lemma hexRepr_inj {a b : Nat} (h : hexRepr a = hexRepr b) : a = b := by
  by_cases ha : a = 0 <;> by_cases hb : b = 0
  · exact ha.trans hb.symm
  · subst ha
    exact absurd (h.symm.trans hexRepr_zero) (hexRepr_ne_zero_str hb)
  · subst hb
    exact absurd (h.trans hexRepr_zero) (hexRepr_ne_zero_str ha)
  · unfold hexRepr at h
    rw [if_neg ha, if_neg hb] at h
    injection h with hl
    have hrev : (Nat.digits 16 a).reverse = (Nat.digits 16 b).reverse :=
      hex_map_inj (fun d hd => digits16_lt a d (List.mem_reverse.mp hd))
        (fun d hd => digits16_lt b d (List.mem_reverse.mp hd)) hl
    have hdig : Nat.digits 16 a = Nat.digits 16 b := by
      have := congrArg List.reverse hrev
      simpa using this
    calc a = Nat.ofDigits 16 (Nat.digits 16 a) := (Nat.ofDigits_digits 16 a).symm
      _ = Nat.ofDigits 16 (Nat.digits 16 b) := by rw [hdig]
      _ = b := Nat.ofDigits_digits 16 b

lemma string_data_append (s t : String) : (s ++ t).data = s.data ++ t.data := by
  cases s; cases t; rfl

lemma pageantRequestName_inj {pid i j : Nat}
    (h : pageantRequestName pid i = pageantRequestName pid j) : i = j := by
  unfold pageantRequestName at h
  have hd := congrArg String.data h
  rw [string_data_append, string_data_append, string_data_append,
    string_data_append] at hd
  have hdata := List.append_cancel_left hd
  exact hexRepr_inj (string_ext hdata)

lemma write_ok_inv {c : Conn} {p : List Nat} {agent : Agent} {n : Nat} {c2 : Conn}
    (h : c.write p agent = .ok n c2) :
    n = p.length ∧
    c.data.closed = false ∧ c.data.items.length < chanCap ∧
    c2 = { c with
           region := (agent (stageRequest c.region p)).2.2
           data := ⟨c.data.items ++ [(agent (stageRequest c.region p)).2.2.take
             (4 + readBE32 (agent (stageRequest c.region p)).2.2)], c.data.closed⟩ } := by
  unfold Conn.write at h
  split at h
  · simp at h
  · split at h
    · simp at h
    · split at h
      · simp at h
      · dsimp only at h
        split at h
        · split at h <;> simp at h
        · split at h
          · simp at h
          · unfold Chan.send at h
            split at h
            · rename_i ch heq
              split at heq
              · simp at heq
              · split at heq
                · rename_i hclosed hroom
                  simp only [SendRes.ok.injEq] at heq
                  subst heq
                  simp only [WriteRes.ok.injEq] at h
                  exact ⟨h.1.symm, by simpa using hclosed, hroom, h.2.symm⟩
                · simp at heq
            · simp at h
            · simp at h

lemma write_ok_eval (c : Conn) (p : List Nat) (agent : Agent)
    (hlen : p.length ≠ 0) (hle : p.length ≤ agentMaxMsglen) (hmem : c.sharedMem ≠ 0)
    (hres : (agent (stageRequest c.region p)).1 ≠ 0)
    (hL : readBE32 (agent (stageRequest c.region p)).2.2 ≤ agentMaxMsglen - 4)
    (hcl : c.data.closed = false) (hroom : c.data.items.length < chanCap) :
    c.write p agent = .ok p.length { c with
      region := (agent (stageRequest c.region p)).2.2
      data := ⟨c.data.items ++ [(agent (stageRequest c.region p)).2.2.take
        (4 + readBE32 (agent (stageRequest c.region p)).2.2)], c.data.closed⟩ } := by
  unfold Conn.write
  rw [if_neg (by omega), if_neg hlen, if_neg hmem]
  dsimp only
  rw [if_neg hres, if_neg (by omega)]
  unfold Chan.send
  rw [if_neg (by simp [hcl]), if_pos hroom]

lemma read_buf_eval (c : Conn) (plen : Nat)
    (heof : c.eof = false) (hmem : c.sharedMem ≠ 0) (hbuf : c.buf ≠ []) :
    c.read plen = .ok (min plen c.buf.length) (c.buf.take (min plen c.buf.length))
      { c with buf := c.buf.drop (min plen c.buf.length) } := by
  unfold Conn.read
  rw [if_neg (by simp [heof]), if_neg hmem, if_neg hbuf]

lemma read_queue_eval (c : Conn) (plen : Nat) (x : List Nat) (rest : List (List Nat))
    (heof : c.eof = false) (hmem : c.sharedMem ≠ 0) (hbuf : c.buf = [])
    (hq : c.data.items = x :: rest) :
    c.read plen = .ok (min plen x.length) (x.take (min plen x.length))
      { c with
        data := ⟨rest, c.data.closed⟩
        buf := x.drop (min plen x.length) } := by
  unfold Conn.read Conn.readResume Chan.recv
  rw [if_neg (by simp [heof]), if_neg hmem, if_pos hbuf, hq]

lemma read_blocked_eval (c : Conn) (plen : Nat)
    (heof : c.eof = false) (hmem : c.sharedMem ≠ 0) (hbuf : c.buf = [])
    (hq : c.data.items = []) (hcl : c.data.closed = false) :
    c.read plen = .blocked := by
  unfold Conn.read Conn.readResume Chan.recv
  rw [if_neg (by simp [heof]), if_neg hmem, if_pos hbuf, hq]
  simp [hcl]

lemma connClose_ok_inv {c c1 : Conn} {eU eC : Option GoError}
    (h : c.connClose eU eC = .ok c1) : c1.sharedMem = 0 := by
  unfold Conn.connClose at h
  split at h
  · rename_i h0
    cases h
    exact h0
  · unfold Chan.chanClose at h
    split at h
    · simp at h
    · rename_i hcl
      simp only [Option.some.injEq] at h
      cases eU with
      | some e => simp at h
      | none =>
        cases eC with
        | some e => simp at h
        | none =>
          cases h
          rfl

lemma connClose_error_inv {c c1 : Conn} {eU eC : Option GoError} {e : GoError}
    (h : c.connClose eU eC = .error e c1) :
    c1 = { c with data := ⟨c.data.items, true⟩ } ∧ c.data.closed = false ∧
      c.sharedMem ≠ 0 := by
  unfold Conn.connClose at h
  split at h
  · simp at h
  · rename_i hmem
    unfold Chan.chanClose at h
    split at h
    · simp at h
    · rename_i ch hcl
      simp at hcl
      obtain ⟨hc, hch⟩ := hcl
      subst hch
      cases eU with
      | some e2 =>
        simp only [CloseRes.error.injEq] at h
        exact ⟨h.2.symm, hc, hmem⟩
      | none =>
        cases eC with
        | some e2 =>
          simp only [CloseRes.error.injEq] at h
          exact ⟨h.2.symm, hc, hmem⟩
        | none => simp at h

lemma sharedMem_zero_read (c : Conn) (plen : Nat)
    (hmem : c.sharedMem = 0) (heof : c.eof = false) :
    c.read plen = .error 0 .notConnected c := by
  unfold Conn.read
  rw [if_neg (by simp [heof]), if_pos hmem]

lemma sharedMem_zero_write (c : Conn) (p : List Nat) (agent : Agent)
    (hmem : c.sharedMem = 0) (hlen : p.length ≠ 0) (hle : p.length ≤ agentMaxMsglen) :
    c.write p agent = .error 0 .notConnected c := by
  unfold Conn.write
  rw [if_neg (by omega), if_neg hlen, if_pos hmem]

lemma sharedMem_zero_close (c : Conn) (eU eC : Option GoError)
    (hmem : c.sharedMem = 0) : c.connClose eU eC = .ok c := by
  unfold Conn.connClose
  rw [if_pos hmem]

lemma write_refused_eval (c : Conn) (p : List Nat) (agent : Agent)
    (hlen : p.length ≠ 0) (hle : p.length ≤ agentMaxMsglen) (hmem : c.sharedMem ≠ 0)
    (hres : (agent (stageRequest c.region p)).1 = 0)
    (herr : (agent (stageRequest c.region p)).2.1 = none) :
    c.write p agent = .error 0 .requestRefused
      { c with region := (agent (stageRequest c.region p)).2.2 } := by
  unfold Conn.write
  rw [if_neg (by omega), if_neg hlen, if_neg hmem]
  dsimp only
  rw [if_pos hres, herr]

lemma write_failed_eval (c : Conn) (p : List Nat) (agent : Agent) (e : String)
    (hlen : p.length ≠ 0) (hle : p.length ≤ agentMaxMsglen) (hmem : c.sharedMem ≠ 0)
    (hres : (agent (stageRequest c.region p)).1 = 0)
    (herr : (agent (stageRequest c.region p)).2.1 = some e) :
    c.write p agent = .error 0 (.failedToSend e)
      { c with region := (agent (stageRequest c.region p)).2.2 } := by
  unfold Conn.write
  rw [if_neg (by omega), if_neg hlen, if_neg hmem]
  dsimp only
  rw [if_pos hres, herr]

lemma write_oversize_response_eval (c : Conn) (p : List Nat) (agent : Agent)
    (hlen : p.length ≠ 0) (hle : p.length ≤ agentMaxMsglen) (hmem : c.sharedMem ≠ 0)
    (hres : (agent (stageRequest c.region p)).1 ≠ 0)
    (hL : readBE32 (agent (stageRequest c.region p)).2.2 > agentMaxMsglen - 4) :
    c.write p agent = .error 0
      (.oversizeResponse ((readBE32 (agent (stageRequest c.region p)).2.2 + 4) % 4294967296)
        agentMaxMsglen)
      { c with region := (agent (stageRequest c.region p)).2.2 } := by
  unfold Conn.write
  rw [if_neg (by omega), if_neg hlen, if_neg hmem]
  dsimp only
  rw [if_neg hres, if_pos hL]

lemma write_error_data {c : Conn} {p : List Nat} {agent : Agent} {n : Nat}
    {e : GoError} {c2 : Conn} (h : c.write p agent = .error n e c2) :
    c2.data = c.data ∧ c2.sharedMem = c.sharedMem := by
  unfold Conn.write at h
  split at h
  · simp only [WriteRes.error.injEq] at h
    rw [← h.2.2]
    exact ⟨rfl, rfl⟩
  · split at h
    · simp only [WriteRes.error.injEq] at h
      rw [← h.2.2]
      exact ⟨rfl, rfl⟩
    · split at h
      · simp only [WriteRes.error.injEq] at h
        rw [← h.2.2]
        exact ⟨rfl, rfl⟩
      · dsimp only at h
        split at h
        · split at h <;>
            · simp only [WriteRes.error.injEq] at h
              rw [← h.2.2]
              exact ⟨rfl, rfl⟩
        · split at h
          · simp only [WriteRes.error.injEq] at h
            rw [← h.2.2]
            exact ⟨rfl, rfl⟩
          · split at h <;> simp at h

lemma read_error_data {c : Conn} {plen n : Nat} {e : GoError} {c2 : Conn}
    (h : c.read plen = .error n e c2) : c2.data = c.data := by
  unfold Conn.read Conn.readResume Chan.recv at h
  split at h
  · simp only [ReadRes.error.injEq] at h
    rw [← h.2.2]
  · split at h
    · simp only [ReadRes.error.injEq] at h
      rw [← h.2.2]
    · split at h
      · split at h
        · simp at h
        · rename_i ch hrecv
          split at hrecv
          · simp at hrecv
          · split at hrecv
            · simp only [RecvRes.closedEmpty.injEq] at hrecv
              simp only [ReadRes.error.injEq] at h
              rw [← h.2.2]
              dsimp only
              rw [← hrecv]
            · simp at hrecv
        · simp at h
      · simp at h

/-- Claim C7: region names are `PageantRequest_<pid-hex>_<counter-hex>`
with the counter the per-process atomic `connUniqueID` incremented on
every `establishConn`, so any two connections created within the same
process — the m-th and the n-th, in any order, with fewer than `2^64`
creations in the process lifetime as the counter is a `uint64` — receive
distinct region names, and no name is reused. -/
theorem C7_region_names_unique (pid m n : Nat)
    (hm : m < 18446744073709551616) (hn : n < 18446744073709551616)
    (hne : m ≠ n) :
    establishMapName pid m ≠ establishMapName pid n := by
  intro h
  unfold establishMapName at h
  have hid := pageantRequestName_inj h
  unfold connUniqueIDValue at hid
  omega

/-- Witness for C7 at pid 4660, connections 0 and 1. -/
theorem C7_region_names_unique_witness :
    establishMapName 4660 0 ≠ establishMapName 4660 1 :=
  C7_region_names_unique 4660 0 1 (by norm_num) (by norm_num) (by decide)

/-- Claim C2: Write of an empty message fails with the empty-message
error and Write of a message longer than 8192 fails with the
oversize-request error, both returning 0 and leaving the state — region
and pending queue included — untouched; a nonzero reply whose declared
length exceeds `8192 - 4` makes Write fail with the oversize-response
error, returning 0 and enqueueing nothing (only the region, which the
agent already overwrote, changes). -/
theorem C2_write_error_cases (c : Conn) (p : List Nat) (agent : Agent) :
    (p.length = 0 → c.write p agent = .error 0 .emptyMessage c) ∧
    (p.length > agentMaxMsglen →
      c.write p agent = .error 0 (.oversizeRequest p.length agentMaxMsglen) c) ∧
    (p.length ≠ 0 → p.length ≤ agentMaxMsglen → c.sharedMem ≠ 0 →
      (agent (stageRequest c.region p)).1 ≠ 0 →
      readBE32 (agent (stageRequest c.region p)).2.2 > agentMaxMsglen - 4 →
      c.write p agent = .error 0
        (.oversizeResponse
          ((readBE32 (agent (stageRequest c.region p)).2.2 + 4) % 4294967296)
          agentMaxMsglen)
        { c with region := (agent (stageRequest c.region p)).2.2 }) := by
  refine ⟨fun h0 => ?_, fun hbig => ?_, fun hlen hle hmem hres hL => ?_⟩
  · unfold Conn.write
    rw [if_neg (by omega), if_pos h0]
  · unfold Conn.write
    rw [if_pos hbig]
  · exact write_oversize_response_eval c p agent hlen hle hmem hres hL

/-- Witness for C2: the three error cases at concrete inputs; the
response declaring length `0xffffffff` reports total size 3 because the
Go size is computed in `uint32`. -/
theorem C2_write_error_cases_witness :
    connT.write [] agentT = .error 0 .emptyMessage connT ∧
    connT.write (List.replicate 8193 0) agentT =
      .error 0 (.oversizeRequest 8193 8192) connT ∧
    connT.write [9] agentBigT = .error 0 (.oversizeResponse 3 8192)
      { connT with region := [255, 255, 255, 255, 0] } := by
  refine ⟨(C2_write_error_cases connT [] agentT).1 rfl, ?_, ?_⟩
  · have h := (C2_write_error_cases connT (List.replicate 8193 0) agentT).2.1
      (by rw [List.length_replicate]; decide)
    rw [List.length_replicate] at h
    exact h
  · have h := (C2_write_error_cases connT [9] agentBigT).2.2
      (by decide) (by decide) (by decide) (by decide) (by decide)
    exact h

/-- Claim C4: when the notify call returns a zero reply code with no
error, Write fails with the request-refused error; when it reports a
messenger-level failure (zero result together with a reported call
error, which is how `Conn.Write` detects transport failure), Write fails
with the failed-to-send error wrapping the cause; the two errors are
distinct, and neither outcome enqueues anything (the channel is left
untouched in the post-state). -/
theorem C4_refused_vs_failed (c : Conn) (p : List Nat) (agent : Agent)
    (hlen : p.length ≠ 0) (hle : p.length ≤ agentMaxMsglen) (hmem : c.sharedMem ≠ 0)
    (hres : (agent (stageRequest c.region p)).1 = 0) :
    ((agent (stageRequest c.region p)).2.1 = none →
      c.write p agent = .error 0 .requestRefused
        { c with region := (agent (stageRequest c.region p)).2.2 }) ∧
    (∀ e, (agent (stageRequest c.region p)).2.1 = some e →
      c.write p agent = .error 0 (.failedToSend e)
        { c with region := (agent (stageRequest c.region p)).2.2 }) ∧
    (∀ e, GoError.failedToSend e ≠ .requestRefused) :=
  ⟨fun herr => write_refused_eval c p agent hlen hle hmem hres herr,
   fun e herr => write_failed_eval c p agent e hlen hle hmem hres herr,
   fun _ h => GoError.noConfusion h⟩

/-- Witness for C4: a refusing agent and a failing messenger at concrete
inputs. -/
theorem C4_refused_vs_failed_witness :
    connT.write [9] agentRefuseT = .error 0 .requestRefused
      { connT with region := [0, 0, 0, 0] } ∧
    connT.write [9] agentFailT = .error 0 (.failedToSend "win32 failure")
      { connT with region := [0, 0, 0, 0] } ∧
    GoError.failedToSend "win32 failure" ≠ .requestRefused :=
  ⟨(C4_refused_vs_failed connT [9] agentRefuseT (by decide) (by decide) (by decide)
      (by decide)).1 rfl,
   (C4_refused_vs_failed connT [9] agentFailT (by decide) (by decide) (by decide)
      (by decide)).2.1 "win32 failure" rfl,
   (C4_refused_vs_failed connT [9] agentFailT (by decide) (by decide) (by decide)
      (by decide)).2.2 "win32 failure"⟩

/-- Claim C10: the size checks come before the connection-state check in
`Conn.Write`: an empty or oversize message gets its size error even when
`sharedMem = 0` (closed or never established), and the not-connected
error is only ever returned for messages with `0 < len ≤ 8192`. -/
theorem C10_size_checks_before_state (c : Conn) (p : List Nat) (agent : Agent) :
    (p.length = 0 → c.write p agent = .error 0 .emptyMessage c) ∧
    (p.length > agentMaxMsglen →
      c.write p agent = .error 0 (.oversizeRequest p.length agentMaxMsglen) c) ∧
    (∀ n c2, c.write p agent = .error n .notConnected c2 →
      0 < p.length ∧ p.length ≤ agentMaxMsglen) := by
  refine ⟨fun h0 => ?_, fun hbig => ?_, fun n c2 h => ?_⟩
  · unfold Conn.write
    rw [if_neg (by omega), if_pos h0]
  · unfold Conn.write
    rw [if_pos hbig]
  · by_cases h1 : p.length > agentMaxMsglen
    · unfold Conn.write at h
      rw [if_pos h1] at h
      simp at h
    · by_cases h2 : p.length = 0
      · unfold Conn.write at h
        rw [if_neg h1, if_pos h2] at h
        simp at h
      · unfold agentMaxMsglen at h1 ⊢
        omega

/-- Witness for C10: a closed connection still reports the size errors,
and the not-connected error implies the size bounds. -/
theorem C10_size_checks_before_state_witness :
    closedConnT.write [] agentT = .error 0 .emptyMessage closedConnT ∧
    closedConnT.write (List.replicate 8193 0) agentT =
      .error 0 (.oversizeRequest 8193 8192) closedConnT ∧
    (0 < ([9] : List Nat).length ∧ ([9] : List Nat).length ≤ agentMaxMsglen) := by
  refine ⟨(C10_size_checks_before_state closedConnT [] agentT).1 rfl, ?_, ?_⟩
  · have h := (C10_size_checks_before_state closedConnT (List.replicate 8193 0) agentT).2.1
      (by rw [List.length_replicate]; decide)
    rw [List.length_replicate] at h
    exact h
  · exact (C10_size_checks_before_state closedConnT [9] agentT).2.2 0 closedConnT
      (by decide)

/-- Claim C6: when bytes are available — a non-empty internal buffer, or
an empty buffer with a chunk on the pending queue — Read copies
`min(len(caller buffer), remaining chunk bytes)` bytes, keeps the
undelivered remainder in the buffer for the next call, and returns the
copied count, which never exceeds the caller's buffer size. -/
theorem C6_read_copies_min (c : Conn) (plen : Nat)
    (heof : c.eof = false) (hmem : c.sharedMem ≠ 0) :
    (c.buf ≠ [] →
      c.read plen = .ok (min plen c.buf.length) (c.buf.take (min plen c.buf.length))
        { c with buf := c.buf.drop (min plen c.buf.length) } ∧
      (c.buf.take (min plen c.buf.length)).length = min plen c.buf.length ∧
      min plen c.buf.length ≤ plen) ∧
    (∀ x rest, c.buf = [] → c.data.items = x :: rest →
      c.read plen = .ok (min plen x.length) (x.take (min plen x.length))
        { c with
          data := ⟨rest, c.data.closed⟩
          buf := x.drop (min plen x.length) } ∧
      (x.take (min plen x.length)).length = min plen x.length ∧
      min plen x.length ≤ plen) := by
  refine ⟨fun hbuf => ⟨read_buf_eval c plen heof hmem hbuf, ?_, Nat.min_le_left _ _⟩,
    fun x rest hbuf hq =>
      ⟨read_queue_eval c plen x rest heof hmem hbuf hq, ?_, Nat.min_le_left _ _⟩⟩
  · rw [List.length_take]
    omega
  · rw [List.length_take]
    omega

/-- Witness for C6: a partial read from the buffer and a full read of a
queued chunk. -/
theorem C6_read_copies_min_witness :
    (connBufT.read 2 = .ok 2 [1, 2] { connBufT with buf := [3] } ∧
      ([1, 2] : List Nat).length = 2 ∧ 2 ≤ 2) ∧
    (connQT.read 9 = .ok 4 [4, 5, 6, 7] { connQT with data := ⟨[], false⟩, buf := [] } ∧
      ([4, 5, 6, 7] : List Nat).length = 4 ∧ 4 ≤ 9) :=
  ⟨(C6_read_copies_min connBufT 2 rfl (by decide)).1 (by decide),
   (C6_read_copies_min connQT 9 rfl (by decide)).2 [4, 5, 6, 7] [] rfl rfl⟩

lemma read_single_chunk (c : Conn) (x : List Nat)
    (heof : c.eof = false) (hmem : c.sharedMem ≠ 0) (hbuf : c.buf = [])
    (hq : c.data.items = [x]) :
    c.read x.length =
      .ok x.length x { c with
        data := ⟨[], c.data.closed⟩
        buf := [] } := by
  have hr := read_queue_eval c x.length x [] heof hmem hbuf hq
  rw [Nat.min_self, List.take_length, List.drop_length] at hr
  exact hr

/-- Claim C1: for `0 < len(p) ≤ 8192` and a connected state, Write stages
`p` verbatim at the start of the region (the agent observes exactly
`stageRequest c.region p`), signals the agent, and on a nonzero reply
enqueues exactly one chunk: the 4-byte big-endian length prefix plus the
`L` declared payload bytes read back from the region, of total length
`4 + L`, returning `len(p)`; the subsequent Read of a buffer of that
size yields exactly those `4 + L` bytes. -/
theorem C1_write_read_roundtrip (c : Conn) (p : List Nat) (agent : Agent)
    (hlen : 0 < p.length) (hle : p.length ≤ agentMaxMsglen) (hmem : c.sharedMem ≠ 0)
    (hres : (agent (stageRequest c.region p)).1 ≠ 0)
    (hL : readBE32 (agentRegion c p agent) ≤ agentMaxMsglen - 4)
    (hra : 4 + readBE32 (agentRegion c p agent) ≤ (agentRegion c p agent).length)
    (heof : c.eof = false) (hbuf : c.buf = []) (hq : c.data.items = [])
    (hcl : c.data.closed = false) :
    c.write p agent = .ok p.length
      { c with
        region := agentRegion c p agent
        data := ⟨[responseChunk c p agent], false⟩ } ∧
    (responseChunk c p agent).length = 4 + readBE32 (agentRegion c p agent) ∧
    Conn.read
      { c with
        region := agentRegion c p agent
        data := ⟨[responseChunk c p agent], false⟩ }
      (4 + readBE32 (agentRegion c p agent)) =
      .ok (4 + readBE32 (agentRegion c p agent)) (responseChunk c p agent)
        { c with
          region := agentRegion c p agent
          data := ⟨[], false⟩
          buf := [] } := by
  have hlenchunk : (responseChunk c p agent).length =
      4 + readBE32 (agentRegion c p agent) := by
    unfold responseChunk
    rw [List.length_take]
    exact Nat.min_eq_left hra
  have hw := write_ok_eval c p agent (by omega) hle hmem
    (by simpa [agentRegion] using hres) (by simpa [agentRegion] using hL) hcl
    (by rw [hq]; decide)
  refine ⟨?_, hlenchunk, ?_⟩
  · rw [hw]
    simp [hq, hcl, responseChunk, agentRegion]
  · rw [← hlenchunk]
    exact read_single_chunk _ _ heof hmem hbuf rfl

/-- Witness for C1: request `[9, 9]` against an agent replying with
payload `"po"` — the chunk `[0, 0, 0, 2, 112, 111]` of length `4 + 2`. -/
theorem C1_write_read_roundtrip_witness :
    connT.write [9, 9] agentT = .ok 2 cW1 ∧
    ([0, 0, 0, 2, 112, 111] : List Nat).length = 6 ∧
    cW1.read 6 = .ok 6 [0, 0, 0, 2, 112, 111]
      { connT with
        region := [0, 0, 0, 2, 112, 111]
        data := ⟨[], false⟩
        buf := [] } :=
  C1_write_read_roundtrip connT [9, 9] agentT (by decide) (by decide) (by decide)
    (by decide) (by decide) (by decide) rfl rfl rfl rfl

lemma runWrites_items (ws : List (List Nat × Agent)) :
    ∀ c c2, runWrites c ws = some c2 →
      c2.data.items = c.data.items ++ specChunks c.region ws := by
  induction ws with
  | nil =>
    intro c c2 h
    simp only [runWrites, Option.some.injEq] at h
    subst h
    simp [specChunks]
  | cons w ws ih =>
    intro c c2 h
    unfold runWrites at h
    cases hw : c.write w.1 w.2 with
    | ok n cmid =>
      rw [hw] at h
      have hrec := ih cmid c2 h
      obtain ⟨-, -, -, hc⟩ := write_ok_inv hw
      subst hc
      rw [hrec]
      simp [specChunks, specStep]
    | error n e cmid =>
      rw [hw] at h
      simp at h
    | blocked =>
      rw [hw] at h
      simp at h
    | panic =>
      rw [hw] at h
      simp at h

/-- Claim C5: response chunks are enqueued in the order the writes
completed — after any run of successful writes, the queue is the old
queue followed by the per-write chunks in write order — and sequential
reads drain the queue front-first: with an empty buffer, Read takes the
head chunk and keeps its undelivered remainder; with a non-empty buffer
(a partial read in progress), Read continues that chunk and leaves the
queue untouched, so a chunk is finished before the next one starts. -/
theorem C5_ordering (c : Conn) (plen : Nat) :
    (∀ ws c2, runWrites c ws = some c2 →
      c2.data.items = c.data.items ++ specChunks c.region ws) ∧
    (∀ x rest, c.eof = false → c.sharedMem ≠ 0 → c.buf = [] →
      c.data.items = x :: rest →
      c.read plen = .ok (min plen x.length) (x.take (min plen x.length))
        { c with
          data := ⟨rest, c.data.closed⟩
          buf := x.drop (min plen x.length) }) ∧
    (∀ b, c.eof = false → c.sharedMem ≠ 0 → c.buf = b → b ≠ [] →
      c.read plen = .ok (min plen b.length) (b.take (min plen b.length))
        { c with buf := b.drop (min plen b.length) }) := by
  refine ⟨fun ws c2 h => runWrites_items ws c c2 h,
    fun x rest heof hmem hbuf hq => read_queue_eval c plen x rest heof hmem hbuf hq,
    fun b heof hmem hbuf hne => ?_⟩
  subst hbuf
  exact read_buf_eval c plen heof hmem hne

/-- Witness for C5: two writes enqueue `"po"` then `"ng"` chunks in
order; a read takes the head chunk partially; a read with a partial
buffer continues it without touching the queue. -/
theorem C5_ordering_witness :
    cW2.data.items = connT.data.items ++ specChunks connT.region wsT ∧
    connQT.read 2 = .ok 2 [4, 5] { connQT with data := ⟨[], false⟩, buf := [6, 7] } ∧
    connBufT.read 2 = .ok 2 [1, 2] { connBufT with buf := [3] } :=
  ⟨(C5_ordering connT 0).1 wsT cW2 (by decide),
   (C5_ordering connQT 2).2.1 [4, 5, 6, 7] [] rfl (by decide) rfl rfl,
   (C5_ordering connBufT 2).2.2 [1, 2, 3] rfl (by decide) rfl (by decide)⟩

/-- Counterexample to claim C3 as stated: after a successful Close, a
Read returns the not-connected error — `Conn.Read` checks
`sharedMem == 0` before touching the channel — not the end-of-stream
condition; likewise an empty Write returns the empty-message error, not
the not-connected error. -/
theorem C3_counterexample :
    connT.connClose none none = .ok closedConnT ∧
    closedConnT.read 1 = .error 0 .notConnected closedConnT ∧
    GoError.notConnected ≠ GoError.eof ∧
    closedConnT.write [] agentT = .error 0 .emptyMessage closedConnT ∧
    GoError.emptyMessage ≠ GoError.notConnected := by decide

/-- Claim C3 amended: after a successful Close the mapping address is 0;
a subsequent Read then returns the not-connected error rather than
end-of-stream (end-of-stream is only returned once the `eof` flag was
set by a Read that observed the channel close), a subsequent Write of a
message of valid size returns the not-connected error, and every
subsequent Close returns success. -/
theorem C3_after_close (c c1 : Conn) (eU eC eU2 eC2 : Option GoError)
    (plen : Nat) (p : List Nat) (agent : Agent)
    (hok : c.connClose eU eC = .ok c1) (heof : c1.eof = false)
    (hlen : p.length ≠ 0) (hle : p.length ≤ agentMaxMsglen) :
    c1.sharedMem = 0 ∧
    c1.read plen = .error 0 .notConnected c1 ∧
    c1.write p agent = .error 0 .notConnected c1 ∧
    c1.connClose eU2 eC2 = .ok c1 := by
  have h0 := connClose_ok_inv hok
  exact ⟨h0, sharedMem_zero_read c1 plen h0 heof,
    sharedMem_zero_write c1 p agent h0 hlen hle,
    sharedMem_zero_close c1 eU2 eC2 h0⟩

/-- Witness for the amended C3 at the concrete closed connection. -/
theorem C3_after_close_witness :
    closedConnT.sharedMem = 0 ∧
    closedConnT.read 3 = .error 0 .notConnected closedConnT ∧
    closedConnT.write [9] agentT = .error 0 .notConnected closedConnT ∧
    closedConnT.connClose none none = .ok closedConnT :=
  C3_after_close connT closedConnT none none none none 3 [9] agentT
    (by decide) rfl (by decide) (by decide)

/-- Counterexample to claim C8 as stated: a Close whose unmap call fails
returns that error but leaves the channel closed with `sharedMem` still
set; a second Close then panics (close of a closed channel), so Close is
not safe after a previous Close that itself returned an error. -/
theorem C8_counterexample :
    connT.connClose (some (.os "unmap failed")) none =
      .error (.os "unmap failed") erroredCloseConnT ∧
    erroredCloseConnT.sharedMem ≠ 0 ∧
    erroredCloseConnT.connClose none none = .panic := by decide

/-- Claim C8 amended: Close never panics while the data channel is still
open — in particular after any failed Read or Write, since their error
returns never change the channel — and after a successful Close a second
Close returns success; but after a Close that itself returned an error,
the channel is closed while `sharedMem` keeps its value, and a further
Close panics. -/
theorem C8_close_safety (c : Conn) (eU eC eU2 eC2 : Option GoError) :
    (c.data.closed = false → c.connClose eU eC ≠ .panic) ∧
    (∀ p agent n e c2, c.write p agent = .error n e c2 → c2.data = c.data) ∧
    (∀ plen n e c2, c.read plen = .error n e c2 → c2.data = c.data) ∧
    (∀ c1, c.connClose eU eC = .ok c1 → c1.connClose eU2 eC2 = .ok c1) ∧
    (∀ e c1, c.connClose eU eC = .error e c1 →
      c1.data.closed = true ∧ c1.sharedMem = c.sharedMem ∧
      c1.connClose eU2 eC2 = .panic) := by
  refine ⟨fun hcl hpanic => ?_, fun p agent n e c2 h => (write_error_data h).1,
    fun plen n e c2 h => read_error_data h,
    fun c1 hok => sharedMem_zero_close c1 eU2 eC2 (connClose_ok_inv hok),
    fun e c1 herr => ?_⟩
  · unfold Conn.connClose at hpanic
    split at hpanic
    · simp at hpanic
    · unfold Chan.chanClose at hpanic
      rw [if_neg (by simp [hcl])] at hpanic
      cases eU <;> cases eC <;> simp at hpanic
  · obtain ⟨hc1, hcl, hmem⟩ := connClose_error_inv herr
    subst hc1
    refine ⟨rfl, rfl, ?_⟩
    unfold Conn.connClose
    rw [if_neg hmem]
    unfold Chan.chanClose
    rw [if_pos rfl]

/-- Witness for the amended C8: a healthy Close does not panic; a Close
after an errored Close does. -/
theorem C8_close_safety_witness :
    connT.connClose none none ≠ .panic ∧
    (erroredCloseConnT.data.closed = true ∧
      erroredCloseConnT.sharedMem = connT.sharedMem ∧
      erroredCloseConnT.connClose none none = .panic) :=
  ⟨(C8_close_safety connT none none none none).1 rfl,
   (C8_close_safety connT (some (.os "unmap failed")) none none none).2.2.2.2
     (.os "unmap failed") erroredCloseConnT (by decide)⟩

/-- Claim C9: a Read that finds the buffer and the open pending queue
both empty blocks at the channel receive; Close closes the channel
(whatever context runs it), and the receive, resumed on the now-closed
channel, returns the end-of-stream condition and sets the `eof` flag. -/
theorem C9_blocked_read_unblocks (c : Conn) (plen : Nat) (eU eC : Option GoError)
    (heof : c.eof = false) (hmem : c.sharedMem ≠ 0) (hbuf : c.buf = [])
    (hq : c.data.items = []) (hcl : c.data.closed = false) :
    c.read plen = .blocked ∧
    Chan.chanClose c.data = some ⟨[], true⟩ ∧
    (∀ c1, c.connClose eU eC = .ok c1 → c1.data = ⟨[], true⟩) ∧
    Conn.readResume { c with data := ⟨[], true⟩ } plen =
      .error 0 .eof { c with data := ⟨[], true⟩, eof := true } := by
  refine ⟨read_blocked_eval c plen heof hmem hbuf hq hcl, ?_, ?_, ?_⟩
  · unfold Chan.chanClose
    rw [if_neg (by simp [hcl]), hq]
  · intro c1 hok
    unfold Conn.connClose at hok
    rw [if_neg hmem] at hok
    unfold Chan.chanClose at hok
    rw [if_neg (by simp [hcl]), hq] at hok
    cases eU with
    | some e => simp at hok
    | none =>
      cases eC with
      | some e => simp at hok
      | none =>
        simp only [CloseRes.ok.injEq] at hok
        rw [← hok]
  · unfold Conn.readResume Chan.recv
    rfl

/-- Witness for C9 at the fresh connection. -/
theorem C9_blocked_read_unblocks_witness :
    connT.read 5 = .blocked ∧
    Chan.chanClose connT.data = some ⟨[], true⟩ ∧
    closedConnT.data = ⟨[], true⟩ ∧
    Conn.readResume { connT with data := ⟨[], true⟩ } 5 =
      .error 0 .eof { connT with data := ⟨[], true⟩, eof := true } := by
  have h := C9_blocked_read_unblocks connT 5 none none rfl (by decide) rfl rfl rfl
  exact ⟨h.1, h.2.1, h.2.2.1 closedConnT (by decide), h.2.2.2⟩
